import Mathlib

/-!
Verification of the schema-registry-backed Avro messaging layer of the
feed service.  The Python sources embedded here are:

* `src/core/serializer/avro_serializer.py` (`AvroSerializer.serialize`,
  `AvroDeserializer.deserialize`, Confluent wire envelope);
* `src/core/serializer/schema_registry_client.py`
  (`register_schema`, `get_schema_by_id` with its id cache);
* `src/core/publisher/avro_kafka_publisher.py`
  (`_get_subject`, `publish`, `publish_batch`, `register_schema`);
* `src/listener/memorial_listener.py` (`MemorialListener.consume`).

Record bodies are encoded with the third-party `avro` library
(`avro.io.BinaryEncoder/BinaryDecoder`, `DatumWriter/DatumReader`), which the
serializer delegates to; its binary format (zig-zag varint longs,
length-prefixed strings, union index prefixes, records field by field) is
embedded below following the library's implementation of the Avro
specification.  Byte strings are modelled as `List Nat` (each entry one
byte), machine integers as `Nat`/`Int` with explicit bounds.
-/

namespace WindeathFeed

/-- Zig-zag mapping used by the avro library's `BinaryEncoder.write_long`:
`datum = (datum << 1) ^ (datum >> 63)`, i.e. non-negative `i` goes to `2*i`
and negative `i` to `-2*i - 1`. -/
def zigzag (i : Int) : Nat :=
  if 0 ≤ i then (2 * i).toNat else (-(2 * i) - 1).toNat

/-- Inverse zig-zag mapping used by `BinaryDecoder.read_long`:
`datum = (n >> 1) ^ -(n & 1)`. -/
def unzigzag (n : Nat) : Int :=
  if n % 2 = 0 then ((n / 2 : Nat) : Int) else -((n / 2 : Nat) : Int) - 1

theorem unzigzag_zigzag (i : Int) : unzigzag (zigzag i) = i := by
  unfold zigzag unzigzag
  by_cases h : 0 ≤ i <;> simp only [h, if_true, if_false, reduceIte] <;>
    split <;> omega

/-- Little-endian base-128 encoding of a natural number, as produced by the
avro library's `write_long` loop (`while (datum & ~0x7F): write low 7 bits
with continuation bit; datum >>= 7`). -/
def writeVarint (n : Nat) : List Nat :=
  if h : n < 128 then [n] else (n % 128 + 128) :: writeVarint (n / 128)
termination_by n
decreasing_by omega

/-- Base-128 decoding as in the avro library's `read_long` loop; returns the
decoded number and the remaining bytes, or `none` on a truncated input. -/
def readVarint : List Nat → Option (Nat × List Nat)
  | [] => none
  | b :: bs =>
    if b < 128 then some (b, bs)
    else
      match readVarint bs with
      | none => none
      | some (m, rest) => some (b - 128 + 128 * m, rest)

theorem readVarint_writeVarint (n : Nat) (rest : List Nat) :
    readVarint (writeVarint n ++ rest) = some (n, rest) := by
  induction n using Nat.strong_induction_on with
  | _ n ih =>
    rw [writeVarint]
    split
    · next h => simp [readVarint, h]
    · next h =>
      have hlt : n / 128 < n := by omega
      have hge : ¬ (n % 128 + 128 < 128) := by omega
      simp only [List.cons_append, readVarint, hge, if_false, reduceIte,
        List.append_eq, ih _ hlt]
      have hn : n % 128 + 128 - 128 + 128 * (n / 128) = n := by omega
      rw [hn]

/-- Avro binary encoding of a signed long: zig-zag then varint
(`BinaryEncoder.write_long`). -/
def writeLong (i : Int) : List Nat :=
  writeVarint (zigzag i)

/-- Avro binary decoding of a signed long (`BinaryDecoder.read_long`). -/
def readLong (bs : List Nat) : Option (Int × List Nat) :=
  match readVarint bs with
  | none => none
  | some (n, rest) => some (unzigzag n, rest)

theorem readLong_writeLong (i : Int) (rest : List Nat) :
    readLong (writeLong i ++ rest) = some (i, rest) := by
  simp [readLong, writeLong, readVarint_writeVarint, unzigzag_zigzag]

/-- Avro schemas as accepted by `avro.schema.parse`, restricted to the
constructs exercised by this service: primitives, unions and records.
String payloads are handled at the level of their UTF-8 bytes. -/
inductive AvroSchema where
  | anull
  | abool
  | along
  | astring
  | aunion (branches : List AvroSchema)
  | arecord (fields : List (String × AvroSchema))

/-- Runtime values handled by the avro `DatumWriter`/`DatumReader`
(Python `None`, `bool`, `int`, `str` as its UTF-8 bytes, `dict`). -/
inductive AvroValue where
  | vnull
  | vbool (b : Bool)
  | vlong (i : Int)
  | vstr (bytes : List Nat)
  | vrec (fields : List (String × AvroValue))

mutual

/-- Schema conformance check mirroring `avro.io.validate`, with record values
taken in canonical form: exactly the schema's fields, in schema order.  The
long branch carries the library's 64-bit range check. -/
def validateV : AvroSchema → AvroValue → Bool
  | .anull, .vnull => true
  | .anull, _ => false
  | .abool, .vbool _ => true
  | .abool, _ => false
  | .along, .vlong i => decide (-(2 ^ 63) ≤ i ∧ i < 2 ^ 63)
  | .along, _ => false
  | .astring, .vstr bs => bs.all (fun b => b < 256)
  | .astring, _ => false
  | .aunion branches, v => validateAny branches v
  | .arecord fs, .vrec vs => validateFields fs vs
  | .arecord _, _ => false

/-- Union conformance: some branch accepts the value
(`any(validate(b, datum) for b in schemas)`). -/
def validateAny : List AvroSchema → AvroValue → Bool
  | [], _ => false
  | s :: rest, v => validateV s v || validateAny rest v

/-- Record conformance in canonical form: the value's fields carry exactly
the schema's field names, in order, with conforming values. -/
def validateFields : List (String × AvroSchema) → List (String × AvroValue) → Bool
  | [], [] => true
  | (n, s) :: fs, (n', v) :: vs => (n == n') && validateV s v && validateFields fs vs
  | _, _ => false

end

/-- Field access performed by `DatumWriter.write_record` via
`datum.get(field.name)`: a missing key yields Python `None`. -/
def lookupField (name : String) : List (String × AvroValue) → AvroValue
  | [] => .vnull
  | (n, v) :: rest => if n == name then v else lookupField name rest

mutual

/-- Avro binary encoding of a value under a schema, following
`avro.io.DatumWriter.write_data`. -/
def writeAvro : AvroSchema → AvroValue → List Nat
  | .anull, _ => []
  | .abool, .vbool b => [if b then 1 else 0]
  | .abool, _ => []
  | .along, .vlong i => writeLong i
  | .along, _ => []
  | .astring, .vstr bs => writeLong bs.length ++ bs
  | .astring, _ => []
  | .aunion branches, v => writeUnion branches 0 v
  | .arecord fs, .vrec vs => writeFields fs vs
  | .arecord _, _ => []

/-- Union encoding (`write_union`): the index of a branch accepting the value
is written as a long, followed by the value encoded at that branch; with no
accepting branch the writer raises (modelled as an empty encoding, unreachable
under `validateV`). -/
def writeUnion : List AvroSchema → Nat → AvroValue → List Nat
  | [], _, _ => []
  | s :: rest, idx, v =>
    if validateV s v then writeLong idx ++ writeAvro s v
    else writeUnion rest (idx + 1) v

/-- Record encoding (`write_record`): each schema field's value, fetched by
name from the datum, encoded in schema order. -/
def writeFields : List (String × AvroSchema) → List (String × AvroValue) → List Nat
  | [], _ => []
  | (n, s) :: fs, vs => writeAvro s (lookupField n vs) ++ writeFields fs vs

end

mutual

/-- Avro binary decoding of one value under a schema, following
`avro.io.DatumReader.read_data`; returns the value and the remaining bytes,
or `none` where the library raises (truncated input, unresolvable union
index). -/
def readAvro : AvroSchema → List Nat → Option (AvroValue × List Nat)
  | .anull, bs => some (.vnull, bs)
  | .abool, [] => none
  | .abool, b :: bs => some (.vbool (b == 1), bs)
  | .along, bs =>
    match readLong bs with
    | none => none
    | some (i, rest) => some (.vlong i, rest)
  | .astring, bs =>
    match readLong bs with
    | none => none
    | some (len, rest) =>
      if 0 ≤ len ∧ len.toNat ≤ rest.length then
        some (.vstr (rest.take len.toNat), rest.drop len.toNat)
      else none
  | .aunion branches, bs =>
    match readLong bs with
    | none => none
    | some (i, rest) => readUnionAt branches i rest
  | .arecord fs, bs =>
    match readFields fs bs with
    | none => none
    | some (vs, rest) => some (.vrec vs, rest)

/-- Union decoding (`read_union`): the branch selected by the decoded index is
used to read the value. -/
def readUnionAt : List AvroSchema → Int → List Nat → Option (AvroValue × List Nat)
  | [], _, _ => none
  | s :: rest, i, bs =>
    if i = 0 then readAvro s bs
    else if i < 0 then none
    else readUnionAt rest (i - 1) bs

/-- Record decoding (`read_record`): fields read in schema order, rebuilding
the record with the schema's field names. -/
def readFields : List (String × AvroSchema) → List Nat →
    Option (List (String × AvroValue) × List Nat)
  | [], bs => some ([], bs)
  | (n, s) :: fs, bs =>
    match readAvro s bs with
    | none => none
    | some (v, rest) =>
      match readFields fs rest with
      | none => none
      | some (vs, rest') => some ((n, v) :: vs, rest')

end

mutual

/-- Well-formedness enforced by `avro.schema.parse`: record field names are
pairwise distinct. -/
def wfS : AvroSchema → Bool
  | .anull => true
  | .abool => true
  | .along => true
  | .astring => true
  | .aunion branches => wfList branches
  | .arecord fs => decide ((fs.map Prod.fst).Nodup) && wfFields fs

/-- Well-formedness of every union branch. -/
def wfList : List AvroSchema → Bool
  | [] => true
  | s :: rest => wfS s && wfList rest

/-- Well-formedness of every record field schema. -/
def wfFields : List (String × AvroSchema) → Bool
  | [] => true
  | (_, s) :: rest => wfS s && wfFields rest

end

theorem wfList_mem {l : List AvroSchema} (h : wfList l = true) {s : AvroSchema}
    (hm : s ∈ l) : wfS s = true := by
  induction l with
  | nil => cases hm
  | cons a rest ih =>
    rw [wfList, Bool.and_eq_true] at h
    rcases List.mem_cons.mp hm with rfl | hm'
    · exact h.1
    · exact ih h.2 hm'

theorem writeUnion_spec (v : AvroValue) (branches : List AvroSchema) :
    ∀ idx : Nat, validateAny branches v = true →
      ∃ k s', branches[k]? = some s' ∧ validateV s' v = true ∧
        writeUnion branches idx v = writeLong ((idx + k : Nat) : Int) ++ writeAvro s' v := by
  induction branches with
  | nil => intro idx h; rw [validateAny] at h; cases h
  | cons s rest ih =>
    intro idx h
    rw [validateAny, Bool.or_eq_true] at h
    by_cases hs : validateV s v = true
    · refine ⟨0, s, by simp, hs, ?_⟩
      rw [writeUnion, if_pos hs]
      simp
    · have hr : validateAny rest v = true := by
        rcases h with h | h
        · exact absurd h hs
        · exact h
      obtain ⟨k, s', hk, hval, heq⟩ := ih (idx + 1) hr
      refine ⟨k + 1, s', by simpa using hk, hval, ?_⟩
      rw [writeUnion, if_neg hs, heq]
      have harith : idx + 1 + k = idx + (k + 1) := by omega
      rw [harith]

theorem readUnionAt_getElem (bs : List Nat) (s' : AvroSchema) :
    ∀ (branches : List AvroSchema) (k : Nat), branches[k]? = some s' →
      readUnionAt branches (k : Int) bs = readAvro s' bs := by
  intro branches
  induction branches with
  | nil => intro k h; simp at h
  | cons s rest ih =>
    intro k h
    cases k with
    | zero =>
      simp only [List.getElem?_cons_zero, Option.some.injEq] at h
      subst h
      rw [readUnionAt]
      simp
    | succ k =>
      simp only [List.getElem?_cons_succ] at h
      rw [readUnionAt]
      have h0 : ((k + 1 : Nat) : Int) ≠ 0 := by omega
      have h1 : ¬ ((k + 1 : Nat) : Int) < 0 := by omega
      rw [if_neg h0, if_neg h1]
      have h2 : ((k + 1 : Nat) : Int) - 1 = (k : Int) := by omega
      rw [h2, ih k h]

theorem writeFields_cons_notmem (n : String) (v : AvroValue) :
    ∀ (fs : List (String × AvroSchema)) (vs : List (String × AvroValue)),
      n ∉ fs.map Prod.fst → writeFields fs ((n, v) :: vs) = writeFields fs vs := by
  intro fs
  induction fs with
  | nil => intro vs _; rw [writeFields, writeFields]
  | cons p rest ih =>
    obtain ⟨m, s⟩ := p
    intro vs hmem
    simp only [List.map_cons, List.mem_cons, not_or] at hmem
    rw [writeFields, writeFields, lookupField]
    have hne : (n == m) = false := by
      simp [hmem.1]
    rw [if_neg (by simp [hne])]
    rw [ih vs (by simpa using hmem.2)]

theorem readFields_writeFields (N : Nat)
    (ih : ∀ s : AvroSchema, sizeOf s < N → wfS s = true →
      ∀ (v : AvroValue) (rest : List Nat), validateV s v = true →
        readAvro s (writeAvro s v ++ rest) = some (v, rest)) :
    ∀ (fs : List (String × AvroSchema)) (vs : List (String × AvroValue))
      (rest : List Nat),
      (∀ p ∈ fs, sizeOf p.2 < N) → wfFields fs = true →
      (fs.map Prod.fst).Nodup → validateFields fs vs = true →
      readFields fs (writeFields fs vs ++ rest) = some (vs, rest) := by
  intro fs
  induction fs with
  | nil =>
    intro vs rest _ _ _ hval
    cases vs with
    | nil => rw [writeFields, readFields]; simp
    | cons p vs' => simp [validateFields] at hval
  | cons p fs' ihf =>
    obtain ⟨n, s⟩ := p
    intro vs rest hsz hwf hnd hval
    cases vs with
    | nil => simp [validateFields] at hval
    | cons q vs' =>
      obtain ⟨n', v'⟩ := q
      simp only [validateFields, Bool.and_eq_true, beq_iff_eq] at hval
      obtain ⟨⟨hn, hv⟩, hrest⟩ := hval
      subst hn
      rw [wfFields, Bool.and_eq_true] at hwf
      simp only [List.map_cons, List.nodup_cons] at hnd
      rw [writeFields]
      have hlk : lookupField n ((n, v') :: vs') = v' := by
        rw [lookupField]; simp
      rw [hlk, writeFields_cons_notmem n v' fs' vs' hnd.1]
      rw [readFields, List.append_assoc]
      have hs1 : sizeOf s < N := by
        have := hsz (n, s) (List.mem_cons_self _ _)
        simpa using this
      rw [ih s hs1 hwf.1 v' (writeFields fs' vs' ++ rest) hv]
      dsimp only
      rw [ihf vs' rest (fun p hp => hsz p (List.mem_cons_of_mem _ hp)) hwf.2 hnd.2 hrest]

theorem readAvro_writeAvro_aux (N : Nat) :
    ∀ s : AvroSchema, sizeOf s < N → wfS s = true →
      ∀ (v : AvroValue) (rest : List Nat), validateV s v = true →
        readAvro s (writeAvro s v ++ rest) = some (v, rest) := by
  induction N with
  | zero => intro s hs; exact absurd hs (Nat.not_lt_zero _)
  | succ N ih =>
    intro s hs hwf v rest hval
    cases s with
    | anull =>
      cases v <;> simp [validateV] at hval
      rw [writeAvro, readAvro]
      simp
    | abool =>
      cases v <;> simp [validateV] at hval
      rename_i b
      cases b <;> simp [writeAvro, readAvro]
    | along =>
      cases v <;> simp [validateV] at hval
      rename_i i
      rw [writeAvro, readAvro, readLong_writeLong]
    | astring =>
      cases v <;> simp [validateV] at hval
      rename_i bs
      rw [writeAvro, readAvro, List.append_assoc, readLong_writeLong]
      dsimp only
      have hc : 0 ≤ (bs.length : Int) ∧
          ((bs.length : Int)).toNat ≤ (bs ++ rest).length := by
        simp
      rw [if_pos hc]
      simp
    | aunion branches =>
      simp only [validateV] at hval
      rw [writeAvro]
      obtain ⟨k, s', hk, hval', heq⟩ := writeUnion_spec v branches 0 hval
      rw [Nat.zero_add] at heq
      have hmem : s' ∈ branches := List.getElem?_mem hk
      have hsz : sizeOf s' < N := by
        have h1 := List.sizeOf_lt_of_mem hmem
        have h2 : sizeOf (AvroSchema.aunion branches) = 1 + sizeOf branches := by
          simp
        omega
      have hwf' : wfS s' = true := wfList_mem (by rwa [wfS] at hwf) hmem
      rw [heq, List.append_assoc, readAvro, readLong_writeLong]
      dsimp only
      rw [readUnionAt_getElem (writeAvro s' v ++ rest) s' branches k hk]
      exact ih s' hsz hwf' v rest hval'
    | arecord fs =>
      cases v <;> simp [validateV] at hval
      case vrec vs =>
      rw [wfS, Bool.and_eq_true] at hwf
      rw [writeAvro, readAvro]
      have hsz : ∀ p ∈ fs, sizeOf p.2 < N := by
        intro p hp
        obtain ⟨pn, ps⟩ := p
        have h1 := List.sizeOf_lt_of_mem hp
        have h2 : sizeOf (AvroSchema.arecord fs) = 1 + sizeOf fs := by simp
        have h3 : sizeOf (pn, ps) = 1 + sizeOf pn + sizeOf ps := by simp
        show sizeOf ps < N
        omega
      rw [readFields_writeFields N ih fs vs rest hsz hwf.2
        (by simpa using hwf.1) hval]

/-- Round trip of the record-body codec: a well-formed record valid under its
schema decodes back to itself from its own encoding. -/
theorem readAvro_writeAvro (s : AvroSchema) (v : AvroValue) (rest : List Nat)
    (hwf : wfS s = true) (hval : validateV s v = true) :
    readAvro s (writeAvro s v ++ rest) = some (v, rest) :=
  readAvro_writeAvro_aux (sizeOf s + 1) s (Nat.lt_succ_self _) hwf v rest hval

/-- Big-endian 4-byte encoding of a 32-bit schema id, as produced by
`struct.pack` with big-endian unsigned-int format in `AvroSerializer.serialize`
(`src/core/serializer/avro_serializer.py`, lines 116-117). -/
def packBE4 (n : Nat) : List Nat :=
  [n / 2 ^ 24 % 256, n / 2 ^ 16 % 256, n / 2 ^ 8 % 256, n % 256]

/-- Big-endian value of a byte list, the reading performed by
`struct.unpack` with format `>I`. -/
def beValue (l : List Nat) : Nat :=
  l.foldl (fun a b => a * 256 + b) 0

theorem beValue_packBE4 (n : Nat) (h : n < 2 ^ 32) : beValue (packBE4 n) = n := by
  simp only [packBE4, beValue, List.foldl]
  omega

/-- Body of `AvroSerializer.serialize` (avro_serializer.py lines 109-125)
after schema resolution: magic byte `0x00`, the 4-byte big-endian schema id,
then the Avro binary encoding of the record. -/
def serialize (schemaId : Nat) (schema : AvroSchema) (data : AvroValue) : List Nat :=
  0 :: packBE4 schemaId ++ writeAvro schema data

/-- Outcome of `AvroDeserializer.deserialize`: Python `None` for a null/empty
input, or a decoded record dictionary. -/
inductive DeserResult where
  | nullResult
  | record (v : AvroValue)

/-- Exceptions raised by `AvroDeserializer.deserialize`: the magic-byte
`ValueError`, a `struct.error` on a truncated header, a registry failure
while resolving the schema id, and an avro decoding failure. -/
inductive DeserError where
  | badMagic
  | truncated
  | registry
  | avroDecode
deriving DecidableEq

/-- Model of `AvroDeserializer.deserialize` (avro_serializer.py lines
179-226).  `data` is the raw message value (`none` is Python `None`);
`resolve` abstracts the schema cache backed by
`SchemaRegistryClient.get_schema_by_id` plus `avro.schema.parse`, with
`none` for a registry failure.  The result is paired with two counters: the
number of schema resolutions attempted (each of which may consult the
registry) and the number of Avro body-decode attempts. -/
def deserializeCount (resolve : Nat → Option AvroSchema) (data : Option (List Nat)) :
    Except DeserError DeserResult × Nat × Nat :=
  match data with
  | none => (.ok .nullResult, 0, 0)
  | some [] => (.ok .nullResult, 0, 0)
  | some (b :: rest) =>
    if b ≠ 0 then (.error .badMagic, 0, 0)
    else
      match rest with
      | b1 :: b2 :: b3 :: b4 :: body =>
        let schemaId := beValue [b1, b2, b3, b4]
        match resolve schemaId with
        | none => (.error .registry, 1, 0)
        | some schema =>
          match readAvro schema body with
          | none => (.error .avroDecode, 1, 1)
          | some (v, _) => (.ok (.record v), 1, 1)
      | _ => (.error .truncated, 0, 0)

/-- Result of `AvroDeserializer.deserialize`, without the instrumentation. -/
def deserialize (resolve : Nat → Option AvroSchema) (data : Option (List Nat)) :
    Except DeserError DeserResult :=
  (deserializeCount resolve data).1

/-- Witness schema: a record with a long field and a nullable string field. -/
def schemaW : AvroSchema :=
  .arecord [("memorialId", .along), ("note", .aunion [.anull, .astring])]

/-- Witness record, with the nullable field set to null. -/
def valueW : AvroValue :=
  .vrec [("memorialId", .vlong 42), ("note", .vnull)]

/-- Registry view used by the round-trip witness: schema id 1 maps to the
witness schema. -/
def resolveW : Nat → Option AvroSchema :=
  fun n => if n = 1 then some schemaW else none

/-- C1: serializing a record that is valid under a well-formed schema with
`AvroSerializer.serialize` and deserializing the produced bytes with
`AvroDeserializer.deserialize`, resolving the schema by the embedded id,
returns the record unchanged — null field values included. -/
theorem serialize_deserialize_roundtrip (resolve : Nat → Option AvroSchema)
    (schemaId : Nat) (s : AvroSchema) (v : AvroValue)
    (hid : schemaId < 2 ^ 32) (hres : resolve schemaId = some s)
    (hwf : wfS s = true) (hval : validateV s v = true) :
    deserialize resolve (some (serialize schemaId s v)) = .ok (.record v) := by
  have hread := readAvro_writeAvro s v [] hwf hval
  rw [List.append_nil] at hread
  rw [deserialize, serialize, packBE4]
  simp only [List.cons_append, List.nil_append]
  rw [deserializeCount]
  rw [if_neg (by simp)]
  dsimp only
  have hbe := beValue_packBE4 schemaId hid
  rw [packBE4] at hbe
  rw [hbe, hres]
  dsimp only
  rw [hread]

/-- C1 witness: a concrete record with an explicit null survives the round
trip through schema id 1. -/
theorem serialize_deserialize_roundtrip_witness :
    deserialize resolveW (some (serialize 1 schemaW valueW)) = .ok (.record valueW) :=
  serialize_deserialize_roundtrip resolveW 1 schemaW valueW
    (by norm_num)
    (by simp [resolveW])
    (by simp [schemaW, wfS, wfFields, wfList])
    (by norm_num [valueW, schemaW, validateV, validateFields, validateAny])

/-- State of an `AvroSerializer` instance (avro_serializer.py lines 31-52):
the bound subject, the constructor-supplied schema, the auto-register flag,
and the `_schema_id` / `_avro_schema` fields that start out as `None`. -/
structure SerializerState where
  subject : String
  schemaStr : Option AvroSchema
  autoRegister : Bool
  schemaId : Option Nat
  parsedSchema : Option AvroSchema

/-- Model of `AvroSerializer._ensure_schema_registered` (avro_serializer.py
lines 54-90).  `latest` abstracts `SchemaRegistryClient.get_latest_schema`
(`none` means the lookup raised) and `register` abstracts
`SchemaRegistryClient.register_schema` (`none` means registration raised).
The `Nat` counts registry calls; errors are the raised `ValueError`s. -/
def ensureSchemaRegistered (ser : SerializerState)
    (latest : String → Option (Nat × AvroSchema))
    (register : String → AvroSchema → Option Nat) :
    Except String (SerializerState × Nat) :=
  match ser.schemaId with
  | some _ => .ok (ser, 0)
  | none =>
    match ser.schemaStr with
    | none =>
      match latest ser.subject with
      | none => .error "No schema provided and failed to load from registry"
      | some (mid, msch) =>
        .ok ({ ser with schemaStr := some msch,
                        schemaId := some mid,
                        parsedSchema := some msch }, 1)
    | some sch =>
      if ser.autoRegister then
        match register ser.subject sch with
        | none => .error "schema registration failed"
        | some rid =>
          .ok ({ ser with schemaId := some rid, parsedSchema := some sch }, 1)
      else .error "Schema not registered and auto_register is False"

/-- Model of `AvroSerializer.serialize` (avro_serializer.py lines 92-129):
ensure the schema is registered, then emit the Confluent wire envelope.  The
`struct.pack` range check and the `DatumWriter` validation failure surface
as errors, as in the source. -/
def serializeM (ser : SerializerState)
    (latest : String → Option (Nat × AvroSchema))
    (register : String → AvroSchema → Option Nat) (data : AvroValue) :
    Except String (List Nat × SerializerState × Nat) :=
  match ensureSchemaRegistered ser latest register with
  | .error e => .error e
  | .ok (ser', calls) =>
    match ser'.schemaId, ser'.parsedSchema with
    | some sid, some sch =>
      if sid < 2 ^ 32 then
        if validateV sch data then .ok (serialize sid sch data, ser', calls)
        else .error "datum is not an example of the schema"
      else .error "struct.error: argument out of range"
    | _, _ => .error "schema not initialized"

/-- C2: every successful `AvroSerializer.serialize` call returns bytes whose
first byte is `0x00`, whose next four bytes are the big-endian encoding of
the schema id resolved/registered for this serializer, and whose remaining
bytes are the Avro binary encoding of the record body. -/
theorem serialize_wire_format (ser : SerializerState)
    (latest : String → Option (Nat × AvroSchema))
    (register : String → AvroSchema → Option Nat) (data : AvroValue)
    (out : List Nat) (ser' : SerializerState) (n : Nat)
    (h : serializeM ser latest register data = .ok (out, ser', n)) :
    ∃ sid sch, ser'.schemaId = some sid ∧ ser'.parsedSchema = some sch ∧
      out = 0 :: (packBE4 sid ++ writeAvro sch data) ∧
      (packBE4 sid).length = 4 ∧ beValue (packBE4 sid) = sid := by
  unfold serializeM at h
  split at h
  · cases h
  · next ser'' calls heq =>
    split at h
    · next sid sch hsid hsch =>
      split at h
      · next hlt =>
        split at h
        · next hval =>
          simp only [Except.ok.injEq, Prod.mk.injEq] at h
          obtain ⟨hout, hser, hn⟩ := h
          subst hser
          refine ⟨sid, sch, hsid, hsch, ?_, rfl, beValue_packBE4 sid hlt⟩
          rw [← hout, serialize, List.cons_append]
        · cases h
      · cases h
    · cases h

/-- Concrete serializer for the C2 witness: constructor-supplied schema with
auto-registration, as built by `AvroSerializer.__init__`. -/
def serW : SerializerState :=
  { subject := "memorial-vectorizing-request-value", schemaStr := some .along,
    autoRegister := true, schemaId := none, parsedSchema := none }

/-- Registry stub for the C2 witness: registration yields schema id 7. -/
def registerW : String → AvroSchema → Option Nat :=
  fun _ _ => some 7

/-- Latest-schema stub for witnesses: the registry has no subjects. -/
def latestNone : String → Option (Nat × AvroSchema) :=
  fun _ => none

/-- Serializer state after the C2 witness call. -/
def serW' : SerializerState :=
  { subject := "memorial-vectorizing-request-value", schemaStr := some .along,
    autoRegister := true, schemaId := some 7, parsedSchema := some .along }

/-- C2 witness: a successful concrete serialize call, with the envelope facts
obtained from `serialize_wire_format`. -/
theorem serialize_wire_format_witness :
    ∃ sid sch, serW'.schemaId = some sid ∧ serW'.parsedSchema = some sch ∧
      [0, 0, 0, 0, 7, 2] = 0 :: (packBE4 sid ++ writeAvro sch (.vlong 1)) ∧
      (packBE4 sid).length = 4 ∧ beValue (packBE4 sid) = sid :=
  serialize_wire_format serW latestNone registerW (.vlong 1)
    [0, 0, 0, 0, 7, 2] serW' 1
    (by
      have hens : ensureSchemaRegistered serW latestNone registerW =
          .ok (serW', 1) := rfl
      have hv : validateV .along (.vlong 1) = true := by
        norm_num [validateV]
      have hz : zigzag 1 = 2 := rfl
      have hv2 : writeVarint 2 = [2] := by rw [writeVarint]; simp
      have hw : writeAvro .along (.vlong 1) = [2] := by
        simp only [writeAvro, writeLong, hz, hv2]
      unfold serializeM
      rw [hens]
      dsimp only [serW']
      rw [if_pos (by norm_num : (7 : Nat) < 2 ^ 32), if_pos hv]
      norm_num [serialize, packBE4, hw, serW'])

/-- C3: `AvroDeserializer.deserialize` on any non-empty buffer whose first
byte is not `0x00` raises the magic-byte `ValueError`; no schema resolution
(hence no registry lookup) and no Avro body decode is attempted, for any
registry state. -/
theorem deserialize_rejects_bad_magic (resolve : Nat → Option AvroSchema)
    (b : Nat) (rest : List Nat) (h : b ≠ 0) :
    deserializeCount resolve (some (b :: rest)) = (.error .badMagic, 0, 0) := by
  rcases rest with _ | ⟨b1, _ | ⟨b2, _ | ⟨b3, _ | ⟨b4, body⟩⟩⟩⟩ <;>
    simp [deserializeCount, h]

/-- C3 witness: a concrete one-byte buffer with magic `0x01` is rejected with
no registry lookup and no decode attempt. -/
theorem deserialize_rejects_bad_magic_witness :
    deserializeCount (fun _ => none) (some [1]) = (.error .badMagic, 0, 0) :=
  deserialize_rejects_bad_magic (fun _ => none) 1 [] (by decide)

/-- One iteration of the `MemorialListener.consume` per-message try/except
(memorial_listener.py lines 95-119): deserialize, then invoke the handler;
the first component lists the values the handler was invoked with, the
second is the error caught by the `except` clause (`none` when the body
completed).  A deserialize failure raises before the handler is reached; a
handler failure happens after the invocation. -/
def processOne (resolve : Nat → Option AvroSchema)
    (handler : DeserResult → Except String Unit) (m : Option (List Nat)) :
    List DeserResult × Option String :=
  match deserialize resolve m with
  | .error _ => ([], some "deserialization error")
  | .ok v =>
    match handler v with
    | .error e => ([v], some e)
    | .ok _ => ([v], none)

/-- The `MemorialListener.consume` loop over a finite sequence of broker
message values (memorial_listener.py lines 94-119), with a registered
handler: every per-message error is caught and logged and the loop
continues, so the function is total and returns the ordered list of handler
invocations. -/
def consumeModel (resolve : Nat → Option AvroSchema)
    (handler : DeserResult → Except String Unit) :
    List (Option (List Nat)) → List DeserResult
  | [] => []
  | m :: ms => (processOne resolve handler m).1 ++ consumeModel resolve handler ms

/-- C4: over any finite message sequence the handler is invoked exactly once
per successfully decoded message, in order; malformed messages are skipped
and handler failures (any `handler` whatsoever) never lose later messages —
`consumeModel` returning a value at all reflects that the per-message
`except` clause absorbs every decode and handler error. -/
theorem consume_invokes_handler_per_valid_message
    (resolve : Nat → Option AvroSchema)
    (handler : DeserResult → Except String Unit)
    (msgs : List (Option (List Nat))) :
    consumeModel resolve handler msgs =
      msgs.filterMap (fun m => (deserialize resolve m).toOption) := by
  induction msgs with
  | nil => rw [consumeModel, List.filterMap_nil]
  | cons m ms ih =>
    rw [consumeModel, List.filterMap_cons, processOne]
    cases hd : deserialize resolve m with
    | error e => simp [Except.toOption, hd, ih]
    | ok v =>
      cases hh : handler v with
      | error e => simp [Except.toOption, hd, hh, ih]
      | ok u => simp [Except.toOption, hd, hh, ih]

theorem consumeModel_append (resolve : Nat → Option AvroSchema)
    (handler : DeserResult → Except String Unit)
    (l1 l2 : List (Option (List Nat))) :
    consumeModel resolve handler (l1 ++ l2) =
      consumeModel resolve handler l1 ++ consumeModel resolve handler l2 := by
  induction l1 with
  | nil => rw [List.nil_append, consumeModel, List.nil_append]
  | cons m ms ih => rw [List.cons_append, consumeModel, consumeModel, ih,
      List.append_assoc]

/-- C10: a tombstone message (null or empty value) is not skipped:
`deserialize` returns the null result and the registered handler is invoked
with it, at the tombstone's position in the stream. -/
theorem tombstone_reaches_handler (resolve : Nat → Option AvroSchema)
    (handler : DeserResult → Except String Unit)
    (pre post : List (Option (List Nat))) (v : Option (List Nat))
    (h : v = none ∨ v = some []) :
    deserialize resolve v = .ok .nullResult ∧
    consumeModel resolve handler (pre ++ v :: post) =
      consumeModel resolve handler pre ++
        .nullResult :: consumeModel resolve handler post := by
  have hdes : deserialize resolve v = .ok .nullResult := by
    rcases h with rfl | rfl
    · rw [deserialize, deserializeCount]
    · rw [deserialize, deserializeCount]
  refine ⟨hdes, ?_⟩
  rw [consumeModel_append, consumeModel, processOne, hdes]
  cases hh : handler .nullResult <;> simp [hh]

/-- C10 witness: with a malformed message before it, a concrete empty
tombstone still reaches the handler as the null result. -/
theorem tombstone_reaches_handler_witness :
    deserialize (fun _ => none) (some []) = .ok .nullResult ∧
    consumeModel (fun _ => none) (fun _ => .ok ()) ([some [1]] ++ some [] :: []) =
      consumeModel (fun _ => none) (fun _ => .ok ()) [some [1]] ++
        .nullResult :: consumeModel (fun _ => none) (fun _ => .ok ()) [] :=
  tombstone_reaches_handler (fun _ => none) (fun _ => .ok ())
    [some [1]] [] (some []) (Or.inr rfl)

/-- `SchemaMetadata` dataclass of schema_registry_client.py (lines 17-23). -/
structure SchemaMetadataM where
  schemaId : Nat
  schema : String
  subject : String
  version : Int

/-- Caches held by a `SchemaRegistryClient` (schema_registry_client.py lines
50-52): `_schema_cache` keyed by subject and `_id_cache` keyed by schema id,
modelled as association lists with newest entries in front (Python dict
assignment overwrites; `List.lookup` finds the newest entry first). -/
structure RegClientState where
  schemaCache : List (String × SchemaMetadataM)
  idCache : List (Nat × String)

/-- One HTTP exchange with the registry, as seen through aiohttp: a raised
`aiohttp.ClientError` (transport failure), or a response carrying its status
together with the JSON fields the client reads on success (`id`, `version`,
`schema`) and the text body it reads on failure. -/
inductive RegResp where
  | transportError (msg : String)
  | http (status : Nat) (respId : Nat) (respVersion : Option Int)
      (respSchema : String) (body : String)

/-- Errors raised by `SchemaRegistryClient`: the generic `Exception(msg)`
built from a failure message plus the response body, or the re-raised
`aiohttp.ClientError`. -/
inductive RegError where
  | httpError (msg : String)
  | clientError (msg : String)

/-- Model of `SchemaRegistryClient.register_schema` (schema_registry_client.py
lines 76-126): on a 200 response the schema id is returned and both caches
are populated; on any other status the raised error message is
`Failed to register schema:` followed by the response body — the HTTP status
is not part of the raised error; a transport failure re-raises the client
error. -/
def registerSchemaModel (st : RegClientState) (resp : RegResp)
    (subject : String) (schemaStr : String) : Except RegError (Nat × RegClientState) :=
  match resp with
  | .transportError m => .error (.clientError m)
  | .http status respId respVersion _ body =>
    if status = 200 then
      .ok (respId,
        { schemaCache := (subject,
            { schemaId := respId, schema := schemaStr, subject := subject,
              version := respVersion.getD (-1) }) :: st.schemaCache,
          idCache := (respId, schemaStr) :: st.idCache })
    else .error (.httpError ("Failed to register schema: " ++ body))

/-- Model of `SchemaRegistryClient.get_schema_by_id` (schema_registry_client.py
lines 128-158): cache hit returns immediately; a cache miss performs one
registry request, populating the cache on a 200 response.  The `Nat` in the
result counts registry network requests issued by the call. -/
def getSchemaByIdModel (st : RegClientState) (resp : RegResp) (schemaId : Nat) :
    Except RegError (String × RegClientState × Nat) :=
  match List.lookup schemaId st.idCache with
  | some s => .ok (s, st, 0)
  | none =>
    match resp with
    | .transportError m => .error (.clientError m)
    | .http status _ _ respSchema body =>
      if status = 200 then
        .ok (respSchema, { st with idCache := (schemaId, respSchema) :: st.idCache }, 1)
      else .error (.httpError ("Failed to get schema: " ++ body))

/-- C6 counterexample: two non-2xx responses with different HTTP statuses but
the same body produce the very same error value, so the raised registry
error cannot carry the HTTP status (it carries only the response body). -/
theorem register_schema_error_lacks_status_cex :
    registerSchemaModel ⟨[], []⟩ (.http 500 0 none "" "boom") "subj" "sch" =
      registerSchemaModel ⟨[], []⟩ (.http 404 0 none "" "boom") "subj" "sch" ∧
    registerSchemaModel ⟨[], []⟩ (.http 500 0 none "" "boom") "subj" "sch" =
      .error (.httpError "Failed to register schema: boom") ∧
    (500 : Nat) ≠ 404 := by
  refine ⟨rfl, rfl, by decide⟩

/-- C6 amended: `register_schema` fails on every non-200 response with an
error whose message carries the response body (but not the status), and
re-raises the transport error on a transport failure. -/
theorem register_schema_error_carries_body (st : RegClientState)
    (status respId : Nat) (respVersion : Option Int) (respSchema body : String)
    (subject schemaStr : String) (h : status ≠ 200) :
    registerSchemaModel st (.http status respId respVersion respSchema body)
        subject schemaStr =
      .error (.httpError ("Failed to register schema: " ++ body)) ∧
    (∀ m, registerSchemaModel st (.transportError m) subject schemaStr =
      .error (.clientError m)) := by
  constructor
  · rw [registerSchemaModel, if_neg h]
  · intro m
    rw [registerSchemaModel]

/-- C6 witness: a concrete 409 response fails with the body-carrying error,
and a concrete transport failure re-raises. -/
theorem register_schema_error_carries_body_witness :
    registerSchemaModel ⟨[], []⟩ (.http 409 0 none "" "incompatible schema")
        "feed-value" "sch" =
      .error (.httpError "Failed to register schema: incompatible schema") ∧
    (∀ m, registerSchemaModel ⟨[], []⟩ (.transportError m) "feed-value" "sch" =
      .error (.clientError m)) :=
  register_schema_error_carries_body ⟨[], []⟩ 409 0 none "" "incompatible schema"
    "feed-value" "sch" (by decide)

/-- C9: a successful `get_schema_by_id` call issues at most one registry
request, and a second call for the same id — under any registry behaviour,
even an unreachable registry — answers from the cache with the same schema,
the same state and zero registry requests. -/
theorem get_schema_by_id_cached (st : RegClientState) (resp resp2 : RegResp)
    (schemaId : Nat) (s : String) (st' : RegClientState) (n : Nat)
    (h : getSchemaByIdModel st resp schemaId = .ok (s, st', n)) :
    n ≤ 1 ∧ getSchemaByIdModel st' resp2 schemaId = .ok (s, st', 0) := by
  unfold getSchemaByIdModel at h
  cases hc : List.lookup schemaId st.idCache with
  | some t =>
    rw [hc] at h
    dsimp only at h
    simp only [Except.ok.injEq, Prod.mk.injEq] at h
    obtain ⟨h1, h2, h3⟩ := h
    subst h1
    subst h2
    refine ⟨by omega, ?_⟩
    unfold getSchemaByIdModel
    rw [hc]
  | none =>
    rw [hc] at h
    dsimp only at h
    cases resp with
    | transportError m => cases h
    | http status rid rv rsch body =>
      dsimp only at h
      by_cases hs : status = 200
      · rw [if_pos hs] at h
        simp only [Except.ok.injEq, Prod.mk.injEq] at h
        obtain ⟨h1, h2, h3⟩ := h
        subst h1
        subst h2
        refine ⟨by omega, ?_⟩
        unfold getSchemaByIdModel
        simp [List.lookup]
      · rw [if_neg hs] at h
        cases h

/-- Registry-client state after the C9 witness's first call. -/
def regStW : RegClientState :=
  { schemaCache := [], idCache := [(5, "cached-schema")] }

/-- C9 witness: after a concrete successful first lookup of id 5, the second
call answers from the cache even though the registry is now unreachable. -/
theorem get_schema_by_id_cached_witness :
    1 ≤ 1 ∧ getSchemaByIdModel regStW (.transportError "registry unreachable") 5 =
      .ok ("cached-schema", regStW, 0) :=
  get_schema_by_id_cached ⟨[], []⟩ (.http 200 0 none "cached-schema" "")
    (.transportError "registry unreachable") 5 "cached-schema" regStW 1 rfl

/-- Python truthiness of an `Optional[str]`: `None` and the empty string are
falsy. -/
def optTruthy (o : Option String) : Bool :=
  match o with
  | none => false
  | some s => decide (s ≠ "")

/-- Model of `AvroKafkaPublisher._get_subject` (avro_kafka_publisher.py lines
113-129): `if subject: return subject`, `if self.default_subject: return
self.default_subject`, else the `{topic}-value` convention. -/
def getSubject (defaultSubject : Option String) (topic : String)
    (subject : Option String) : String :=
  if optTruthy subject then subject.getD ""
  else if optTruthy defaultSubject then defaultSubject.getD ""
  else topic ++ "-value"

/-- C8 counterexample: an explicitly supplied empty-string subject is falsy
in Python, so `_get_subject` falls through to the configured default instead
of using the supplied argument. -/
theorem get_subject_empty_string_cex :
    getSubject (some "configured-default") "memorial-topic" (some "") =
      "configured-default" ∧
    "configured-default" ≠ ("" : String) := by
  refine ⟨rfl, by decide⟩

/-- C8 amended: subject resolution precedence holds for non-empty arguments:
a non-empty explicit subject wins, else a non-empty configured default, else
`{topic}-value`; in particular the topic `memorial-vectorizing-response`
with no subject and no default resolves to
`memorial-vectorizing-response-value`. -/
theorem get_subject_precedence (ds : Option String) (topic : String) :
    (∀ s : String, s ≠ "" → getSubject ds topic (some s) = s) ∧
    (∀ d : String, d ≠ "" → getSubject (some d) topic none = d) ∧
    getSubject none topic none = topic ++ "-value" ∧
    getSubject none "memorial-vectorizing-response" none =
      "memorial-vectorizing-response-value" := by
  refine ⟨?_, ?_, ?_, ?_⟩
  · intro s hs
    have ht : optTruthy (some s) = true := by
      simp [optTruthy, hs]
    rw [getSubject, if_pos ht]
    rfl
  · intro d hd
    have ht : optTruthy (some d) = true := by
      simp [optTruthy, hd]
    rw [getSubject]
    rw [if_neg (by simp [optTruthy]), if_pos ht]
    rfl
  · rfl
  · rfl

/-- C8 witness: the three precedence levels at concrete values, via
`get_subject_precedence`. -/
theorem get_subject_precedence_witness :
    getSubject (some "configured-default") "t" (some "explicit-subject") =
      "explicit-subject" ∧
    getSubject (some "configured-default") "t" none = "configured-default" ∧
    getSubject none "t" none = "t-value" ∧
    getSubject none "memorial-vectorizing-response" none =
      "memorial-vectorizing-response-value" :=
  ⟨(get_subject_precedence (some "configured-default") "t").1
      "explicit-subject" (by decide),
    (get_subject_precedence (some "configured-default") "t").2.1
      "configured-default" (by decide),
    (get_subject_precedence none "t").2.2.1,
    (get_subject_precedence none "t").2.2.2⟩

/-- Mutable state of an `AvroKafkaPublisher` (avro_kafka_publisher.py lines
56-72): the started flag, the configured default subject and the serializer
cache keyed by subject (association list, newest entry first, matching
Python dict overwrite semantics under `List.lookup`). -/
structure PubState where
  started : Bool
  defaultSubject : Option String
  serializers : List (String × SerializerState)

/-- Model of `AvroKafkaPublisher.register_schema` (avro_kafka_publisher.py
lines 131-162): registers via the registry client (`register` is its
behaviour, `none` meaning it raised, which propagates) and caches a fresh
`AvroSerializer` built with `auto_register=False` and — as in the source —
no schema id set.  Returns the schema id, the new state and the number of
registry calls. -/
def registerSchemaPub (st : PubState)
    (register : String → AvroSchema → Option Nat)
    (topic : String) (schema : AvroSchema) (subject : Option String) :
    Except String (Nat × PubState × Nat) :=
  match register (getSubject st.defaultSubject topic subject) schema with
  | none => .error "registry register_schema raised"
  | some sid =>
    .ok (sid, { st with serializers :=
      (getSubject st.defaultSubject topic subject,
        { subject := getSubject st.defaultSubject topic subject,
          schemaStr := some schema, autoRegister := false,
          schemaId := none, parsedSchema := none }) :: st.serializers }, 1)

/-- Tail of `AvroKafkaPublisher.publish` (avro_kafka_publisher.py lines
208-228) once a serializer is at hand: serialize (failures are caught by the
`except` clauses and reported as `False`), then `send_and_wait` (`sendOk`
abstracts broker acknowledgement; a `KafkaError` is caught and reported as
`False`).  Result: (returned boolean, publisher state, registry calls,
broker send attempts). -/
def publishSend (st : PubState)
    (latest : String → Option (Nat × AvroSchema))
    (register : String → AvroSchema → Option Nat) (sendOk : Bool)
    (message : AvroValue) (ser : SerializerState) (subjectName : String)
    (calls : Nat) : Except String (Bool × PubState × Nat × Nat) :=
  match serializeM ser latest register message with
  | .error _ => .ok (false, st, calls, 0)
  | .ok (_, ser', m) =>
    if sendOk then
      .ok (true, { st with serializers := (subjectName, ser') :: st.serializers },
        calls + m, 1)
    else
      .ok (false, { st with serializers := (subjectName, ser') :: st.serializers },
        calls + m, 1)

/-- Middle of `AvroKafkaPublisher.publish` (lines 205-208) when no serializer
is cached: `register_schema` (its exception is caught by `publish`, reported
as `False`), then continue with the newly cached serializer. -/
def publishWithNewSerializer (st : PubState)
    (latest : String → Option (Nat × AvroSchema))
    (register : String → AvroSchema → Option Nat) (sendOk : Bool)
    (topic : String) (message : AvroValue) (sch : AvroSchema)
    (subject : Option String) (subjectName : String) (calls : Nat) :
    Except String (Bool × PubState × Nat × Nat) :=
  match registerSchemaPub st register topic sch subject with
  | .error _ => .ok (false, st, calls + 1, 0)
  | .ok (_, st', m) =>
    match List.lookup subjectName st'.serializers with
    | none => .ok (false, st', calls + m, 0)
    | some ser => publishSend st' latest register sendOk message ser subjectName (calls + m)

/-- Model of `AvroKafkaPublisher.publish` (avro_kafka_publisher.py lines
164-228).  `_ensure_started` runs before the `try` block, so a failed
`start()` (`startOk = false` on an unstarted publisher) propagates to the
caller; everything inside the `try` is downgraded to a returned `False` by
the `except KafkaError` / `except Exception` clauses.  With no cached
serializer and no `schema` argument, the latest schema is fetched from the
registry; when that raises, the `ValueError` built by publish is itself
caught by the outer `except Exception` and publish returns `False`. -/
def publishModel (st : PubState) (startOk : Bool)
    (latest : String → Option (Nat × AvroSchema))
    (register : String → AvroSchema → Option Nat) (sendOk : Bool)
    (topic : String) (message : AvroValue) (key : Option String)
    (schema : Option AvroSchema) (subject : Option String) :
    Except String (Bool × PubState × Nat × Nat) :=
  if st.started = false ∧ startOk = false then
    .error "Failed to start Avro Kafka producer"
  else
    match List.lookup (getSubject st.defaultSubject topic subject)
        { st with started := true }.serializers with
    | none =>
      match schema with
      | none =>
        match latest (getSubject st.defaultSubject topic subject) with
        | none => .ok (false, { st with started := true }, 1, 0)
        | some (_, msch) =>
          publishWithNewSerializer { st with started := true } latest register
            sendOk topic message msch subject
            (getSubject st.defaultSubject topic subject) 1
      | some sch =>
        publishWithNewSerializer { st with started := true } latest register
          sendOk topic message sch subject
          (getSubject st.defaultSubject topic subject) 0
    | some ser =>
      publishSend { st with started := true } latest register sendOk message ser
        (getSubject st.defaultSubject topic subject) 0

/-- Started publisher with no configured default subject and an empty
serializer cache. -/
def pubSt0 : PubState :=
  { started := true, defaultSubject := none, serializers := [] }

/-- C5 counterexample: with the schema argument omitted, no cached serializer
and no schema registered for the subject, `publish` does not raise to the
caller — the internally raised `ValueError` is caught by publish's own
`except Exception` handler and the call returns `False` (after the one
failed latest-schema registry lookup, with no broker send). -/
theorem publish_missing_schema_cex :
    publishModel pubSt0 true latestNone (fun _ _ => none) true
        "memorial-vectorizing-response" .vnull none none none =
      .ok (false, pubSt0, 1, 0) := rfl

/-- C5 amended: on a started publisher, with the schema argument omitted, no
serializer cached for the resolved subject and no schema registered in the
registry for that subject, `publish` returns `False` to the caller — it
neither completes successfully nor raises — after one registry lookup and
no broker send. -/
theorem publish_missing_schema_returns_false (st : PubState)
    (latest : String → Option (Nat × AvroSchema))
    (register : String → AvroSchema → Option Nat) (sendOk : Bool)
    (topic : String) (message : AvroValue) (key : Option String)
    (subject : Option String)
    (hstart : st.started = true)
    (hser : List.lookup (getSubject st.defaultSubject topic subject)
      st.serializers = none)
    (hlat : latest (getSubject st.defaultSubject topic subject) = none) :
    publishModel st true latest register sendOk topic message key none subject =
      .ok (false, { st with started := true }, 1, 0) := by
  unfold publishModel
  rw [if_neg (by simp [hstart])]
  dsimp only
  rw [hser]
  dsimp only
  rw [hlat]

/-- Started publisher with a configured default subject, for the C5 witness. -/
def pubStW : PubState :=
  { started := true, defaultSubject := some "feed-default", serializers := [] }

/-- C5 witness: a concrete publish with schema omitted, empty cache and an
empty registry returns `False` after one registry lookup. -/
theorem publish_missing_schema_returns_false_witness :
    publishModel pubStW true latestNone (fun _ _ => some 9) false "t" .vnull
        (some "k") none none =
      .ok (false, { pubStW with started := true }, 1, 0) :=
  publish_missing_schema_returns_false pubStW latestNone (fun _ _ => some 9)
    false "t" .vnull (some "k") none rfl rfl rfl

/-- Python truthiness of the `keys` argument of `publish_batch`
(`if keys and ...`): `None` and the empty list are falsy. -/
def keysTruthy : Option (List String) → Bool
  | none => false
  | some [] => false
  | some (_ :: _) => true

/-- Per-message loop of `AvroKafkaPublisher.publish_batch`
(avro_kafka_publisher.py lines 272-282): serialize each message in order
(threading the serializer state, which mutates in place in the source) and
enqueue one `producer.send` per serialized message.  Returns whether the
loop completed without a raised exception, the final serializer state, the
accumulated registry calls and the number of broker send attempts. -/
def batchLoop (latest : String → Option (Nat × AvroSchema))
    (register : String → AvroSchema → Option Nat) :
    SerializerState → List AvroValue → Nat → Nat →
      Bool × SerializerState × Nat × Nat
  | ser, [], calls, sends => (true, ser, calls, sends)
  | ser, msg :: rest, calls, sends =>
    match serializeM ser latest register msg with
    | .error _ => (false, ser, calls, sends)
    | .ok (_, ser', m) => batchLoop latest register ser' rest (calls + m) (sends + 1)

/-- Tail of `AvroKafkaPublisher.publish_batch` (lines 269-296) once a
serializer is at hand: run the send loop, then await the acknowledgements
(`sendOk` abstracts them); a serialize failure or a `KafkaError` is caught
by the `except` clauses and reported as `False`. -/
def batchSendAll (st : PubState)
    (latest : String → Option (Nat × AvroSchema))
    (register : String → AvroSchema → Option Nat) (sendOk : Bool)
    (messages : List AvroValue) (ser : SerializerState) (subjectName : String)
    (calls : Nat) : Except String (Bool × PubState × Nat × Nat) :=
  match batchLoop latest register ser messages calls 0 with
  | (completed, ser', calls', sends') =>
    if completed then
      .ok (sendOk, { st with serializers := (subjectName, ser') :: st.serializers },
        calls', sends')
    else
      .ok (false, { st with serializers := (subjectName, ser') :: st.serializers },
        calls', sends')

/-- Middle of `publish_batch` (lines 261-267) when no serializer is cached:
fetch the latest schema when none was supplied (no inner `try` here — a
failure is caught by the outer `except`), register, and continue. -/
def batchRegisterAndSend (st : PubState)
    (latest : String → Option (Nat × AvroSchema))
    (register : String → AvroSchema → Option Nat) (sendOk : Bool)
    (topic : String) (messages : List AvroValue) (sch : AvroSchema)
    (subject : Option String) (subjectName : String) (calls : Nat) :
    Except String (Bool × PubState × Nat × Nat) :=
  match registerSchemaPub st register topic sch subject with
  | .error _ => .ok (false, st, calls + 1, 0)
  | .ok (_, st', m) =>
    match List.lookup subjectName st'.serializers with
    | none => .ok (false, st', calls + m, 0)
    | some ser => batchSendAll st' latest register sendOk messages ser subjectName (calls + m)

/-- Model of `AvroKafkaPublisher.publish_batch` (avro_kafka_publisher.py
lines 230-296).  `_ensure_started` runs first (a failed implicit start
propagates); then the key-length guard `if keys and len(keys) !=
len(messages)` returns `False` — note that an empty `keys` list is falsy in
Python and bypasses the guard; then subject resolution, serializer
creation-or-reuse and the send loop, with every failure inside the `try`
downgraded to a returned `False`. -/
def publishBatchModel (st : PubState) (startOk : Bool)
    (latest : String → Option (Nat × AvroSchema))
    (register : String → AvroSchema → Option Nat) (sendOk : Bool)
    (topic : String) (messages : List AvroValue)
    (keys : Option (List String)) (schema : Option AvroSchema)
    (subject : Option String) : Except String (Bool × PubState × Nat × Nat) :=
  if st.started = false ∧ startOk = false then
    .error "Failed to start Avro Kafka producer"
  else
    if keysTruthy keys = true ∧ (keys.getD []).length ≠ messages.length then
      .ok (false, { st with started := true }, 0, 0)
    else
      match List.lookup (getSubject st.defaultSubject topic subject)
          { st with started := true }.serializers with
      | none =>
        match schema with
        | none =>
          match latest (getSubject st.defaultSubject topic subject) with
          | none => .ok (false, { st with started := true }, 1, 0)
          | some (_, msch) =>
            batchRegisterAndSend { st with started := true } latest register
              sendOk topic messages msch subject
              (getSubject st.defaultSubject topic subject) 1
        | some sch =>
          batchRegisterAndSend { st with started := true } latest register
            sendOk topic messages sch subject
            (getSubject st.defaultSubject topic subject) 0
      | some ser =>
        batchSendAll { st with started := true } latest register sendOk messages
          ser (getSubject st.defaultSubject topic subject) 0

/-- C7 counterexample: `keys = []` is supplied and its length differs from
`len(messages) = 1`, yet the guard is bypassed (`if keys and ...` is falsy
for an empty list): the call goes on to issue a registry request
(one network call) before returning `False`, instead of failing fast with
no network activity. -/
theorem publish_batch_empty_keys_cex :
    publishBatchModel pubSt0 true latestNone (fun _ _ => none) true "t"
        [.vnull] (some []) none none =
      .ok (false, pubSt0, 1, 0) ∧
    some ([] : List String) ≠ none ∧
    ([] : List String).length ≠ [AvroValue.vnull].length := by
  refine ⟨rfl, by simp, by decide⟩

/-- C7 amended: when `keys` is supplied non-empty with a length different
from `messages`, `publish_batch` on a started publisher returns `False`
before any registry request or broker send (and without touching the
serializer cache). -/
theorem publish_batch_key_mismatch_fails_fast (st : PubState)
    (latest : String → Option (Nat × AvroSchema))
    (register : String → AvroSchema → Option Nat) (sendOk : Bool)
    (topic : String) (messages : List AvroValue) (ks : List String)
    (schema : Option AvroSchema) (subject : Option String)
    (hstart : st.started = true) (hne : ks ≠ [])
    (hlen : ks.length ≠ messages.length) :
    publishBatchModel st true latest register sendOk topic messages (some ks)
        schema subject =
      .ok (false, { st with started := true }, 0, 0) := by
  have ht : keysTruthy (some ks) = true := by
    cases ks with
    | nil => exact absurd rfl hne
    | cons a l => rfl
  unfold publishBatchModel
  rw [if_neg (by simp [hstart])]
  rw [if_pos ⟨ht, by simpa using hlen⟩]

/-- C7 witness: two keys against three messages on a started publisher fails
fast with no registry request and no send. -/
theorem publish_batch_key_mismatch_fails_fast_witness :
    publishBatchModel pubStW true latestNone (fun _ _ => some 9) true "t"
        [.vnull, .vnull, .vnull] (some ["k1", "k2"]) none none =
      .ok (false, { pubStW with started := true }, 0, 0) :=
  publish_batch_key_mismatch_fails_fast pubStW latestNone (fun _ _ => some 9)
    true "t" [.vnull, .vnull, .vnull] ["k1", "k2"] none none rfl
    (by decide) (by decide)

end WindeathFeed